import Mathlib

/-!
# Verification of `ECKey` (src/eckey.cc)

`eckey.cc` is a thin node.js binding around OpenSSL's elliptic-curve API.  The embedding
below follows the file function by function.

* The C++ object `ECKey` becomes the record `ECKey`; an OpenSSL `EC_KEY` becomes the record
  `EC_KEY` (group, optional private scalar, optional public point).  A C pointer that may be
  `NULL` is an `Option`.
* The points of the curves form a commutative group `P`, written additively; the scalar
  multiple `d • Q` of Mathlib is the curve's scalar multiplication.
* OpenSSL and libc are external to the repository.  Every primitive that `eckey.cc` calls and
  whose result it cannot determine itself is a field of the record `Lib`; what a theorem needs
  to know about such a primitive is a hypothesis of that theorem.  `BN_bin2bn`, `BN_num_bytes`
  and `BN_bn2bin` (big-endian conversion of a number) and the field accessors
  `EC_KEY_get0_*`, `EC_KEY_set_*` are written out.
* `V8Exception(msg)` schedules a JavaScript exception and hands back `undefined`.  A call is
  described by `Call`: the messages passed to `V8Exception`, in order, and what was returned.
  Behaviour that leaves the defined semantics of C++ (a `NULL` dereference, an out-of-bounds
  `memcpy`) is the result `Ret.fault`.
-/

namespace ECC

/-! ## Data model -/

/-- Byte strings: the contents of a node `Buffer` or of an `unsigned char` array. -/
abbrev Bytes := List UInt8

/-- OpenSSL `BIGNUM`; only non-negative numbers occur in `eckey.cc`. -/
abbrev BIGNUM := Nat

/-- OpenSSL `EC_GROUP`: the named curve, its generator and the order of the generator. -/
structure EC_GROUP (P : Type) where
  nid : Int
  generator : P
  order : Nat
  deriving DecidableEq

/-- OpenSSL `EC_KEY`: a group, an optional private scalar and an optional public point. -/
structure EC_KEY (P : Type) where
  group : EC_GROUP P
  priv_key : Option BIGNUM
  pub_key : Option P
  deriving DecidableEq

/-- OpenSSL `ECDSA_SIG`: the pair (r, s). -/
structure ECDSA_SIG where
  r : Nat
  s : Nat
  deriving DecidableEq

/-- The C++ class `ECKey` (fields `mLastError`, `mHasPrivateKey`, `mCurve`, `mKey`). -/
structure ECKey (P : Type) where
  mLastError : Option String
  mHasPrivateKey : Bool
  mCurve : Int
  mKey : Option (EC_KEY P)
  deriving DecidableEq

/-- JavaScript values as `eckey.cc` inspects them: `undefined`, a node `Buffer`, a boolean,
an object wrapping an `ECKey` pointer (possibly `NULL`), or any other value, of which only
the truthiness is looked at. -/
inductive Value (P : Type) where
  | undefined
  | buffer (data : Bytes)
  | boolean (b : Bool)
  | eckey (wrapped : Option (ECKey P))
  | other (truthy : Bool)

/-- What a binding function hands back: a value (`scope.Close(v)`), the `undefined` handle
returned by `V8Exception`, or nothing defined at all. -/
inductive Ret (α : Type) where
  | value (v : α)
  | undefined
  | fault
  deriving DecidableEq

/-- One call of a binding function: the messages given to `V8Exception`, in the order of the
calls, and the returned handle. -/
structure Call (α : Type) where
  thrown : List String
  ret : Ret α
  deriving DecidableEq

/-- The exception the JavaScript caller observes: every `ThrowException` replaces the
exception scheduled before it, so it is the last message. -/
def Call.reported {α : Type} (c : Call α) : Option String := c.thrown.getLast?

/-- The value returned, if one was. -/
def Call.result {α : Type} (c : Call α) : Option α :=
  match c.ret with
  | .value v => some v
  | _ => none

/-- The external primitives called by `eckey.cc`.  A pointer result is an `Option`, an `int`
status that the source only tests for zero is folded into it (`none`: the call returned 0 or
`NULL`), and a call that fills a caller-supplied array returns the bytes it wrote. -/
structure Lib (P : Type) where
  /-- `EC_KEY_new_by_curve_name(nid)`: a key holding only the group, or `NULL`. -/
  EC_KEY_new_by_curve_name : Int → Option (EC_KEY P)
  /-- `BN_CTX_new() != NULL`. -/
  BN_CTX_new : Bool
  /-- `EC_POINT_new(group) != NULL`. -/
  EC_POINT_new : EC_GROUP P → Bool
  /-- `EC_POINT_mul(group, r, g_scalar, point, p_scalar, ctx)`: the point stored in `r`. -/
  EC_POINT_mul : EC_GROUP P → Option BIGNUM → Option P → Option BIGNUM → Option P
  /-- `EC_KEY_generate_key(key)`: the key after the call. -/
  EC_KEY_generate_key : Option (EC_KEY P) → Option (EC_KEY P)
  /-- `o2i_ECPublicKey(&key, &data, len)`: the key after the call. -/
  o2i_ECPublicKey : Option (EC_KEY P) → Bytes → Option (EC_KEY P)
  /-- `EC_POINT_point2oct(group, point, UNCOMPRESSED, buf, len, NULL)`; the third argument is
  `none` for `buf = NULL` and the length of the array otherwise. -/
  EC_POINT_point2oct : EC_GROUP P → Option P → Option Nat → Nat × Bytes
  /-- `ECDSA_do_sign(dgst, dlen, key)`. -/
  ECDSA_do_sign : Bytes → Option (EC_KEY P) → Option ECDSA_SIG
  /-- `i2d_ECDSA_SIG(sig, pp)`; the flag tells whether an output array is supplied. -/
  i2d_ECDSA_SIG : ECDSA_SIG → Bool → Int × Bytes
  /-- `ECDSA_verify(type, dgst, dlen, sig, siglen, key)`. -/
  ECDSA_verify : Int → Bytes → Bytes → Option (EC_KEY P) → Int
  /-- `ECDH_compute_key(out, outlen, pub_key, ecdh, NULL)`. -/
  ECDH_compute_key : Nat → Option P → Option (EC_KEY P) → Int × Bytes
  /-- The indeterminate byte found at an offset of a fresh `malloc` region. -/
  fresh : Nat → UInt8

/-! ## Memory and host helpers -/

/-- The region returned by `malloc(n)`.  A negative `int` converts to a `size_t` no allocator
can serve; the region is then empty. -/
def malloc {P : Type} (L : Lib P) (n : Int) : Bytes :=
  (List.range n.toNat).map L.fresh

/-- The region after a callee wrote `written` from its start. -/
def store (region written : Bytes) : Bytes :=
  written ++ region.drop written.length

/-- The sequence `Buffer::New(len)`, `memcpy(Buffer::Data(result), src, len)`: the first `len`
bytes of the region.  With a negative `len`, or one beyond the region, the copy is out of
bounds. -/
def Buffer_New_memcpy (src : Bytes) (len : Int) : Ret Bytes :=
  if 0 ≤ len ∧ len.toNat ≤ src.length then .value (src.take len.toNat) else .fault

/-- `V8Exception(msg)` after the exceptions in `pending`. -/
def V8Exception {α : Type} (pending : List String) (msg : String) : Call α :=
  ⟨pending ++ [msg], .undefined⟩

/-- `IsUndefined()`. -/
def Value.IsUndefined {P : Type} : Value P → Bool
  | .undefined => true
  | _ => false

/-- `BooleanValue()`: JavaScript truthiness; objects are truthy. -/
def Value.BooleanValue {P : Type} : Value P → Bool
  | .undefined => false
  | .buffer _ => true
  | .boolean b => b
  | .eckey _ => true
  | .other t => t

/-! ## Big-number byte conversion -/

/-- `BN_bin2bn(s, len, ret)`: the big-endian unsigned value of the bytes. -/
def BN_bin2bn (s : Bytes) : BIGNUM :=
  s.foldl (fun acc b => acc * 256 + b.toNat) 0

/-- Bit length of `n`, by halving at most `fuel` times. -/
def numBitsAux : Nat → Nat → Nat
  | 0, _ => 0
  | fuel + 1, n => if n = 0 then 0 else numBitsAux fuel (n / 2) + 1

/-- `BN_num_bits(a)`. -/
def BN_num_bits (a : BIGNUM) : Nat := numBitsAux a a

/-- `BN_num_bytes(a)`, the macro `(BN_num_bits(a)+7)/8`. -/
def BN_num_bytes (a : BIGNUM) : Nat := (BN_num_bits a + 7) / 8

/-- `BN_bn2bin(a, to)`: returns `BN_num_bytes(a)` and writes that many bytes, the most
significant first. -/
def BN_bn2bin (a : BIGNUM) : Nat × Bytes :=
  let n := BN_num_bytes a
  (n, (List.range n).reverse.map (fun i => UInt8.ofNat ((a >>> (8 * i)) % 256)))

/-! ## `EC_KEY` accessors -/

/-- `EC_KEY_get0_group`. -/
def EC_KEY_get0_group {P : Type} (key : EC_KEY P) : EC_GROUP P := key.group

/-- `EC_KEY_get0_public_key`. -/
def EC_KEY_get0_public_key {P : Type} (key : EC_KEY P) : Option P := key.pub_key

/-- `EC_KEY_get0_private_key`. -/
def EC_KEY_get0_private_key {P : Type} (key : EC_KEY P) : Option BIGNUM := key.priv_key

/-- `EC_KEY_set_private_key(key, priv_key)`: the key keeps a copy of the scalar. -/
def EC_KEY_set_private_key {P : Type} (key : EC_KEY P) (priv_key : Option BIGNUM) : EC_KEY P :=
  { key with priv_key := priv_key }

/-- `EC_KEY_set_public_key(key, pub_key)`: the key keeps a copy of the point. -/
def EC_KEY_set_public_key {P : Type} (key : EC_KEY P) (pub_key : Option P) : EC_KEY P :=
  { key with pub_key := pub_key }

/-! ## The functions of `eckey.cc` -/

/-- `EC_KEY_regenerate_key(eckey, priv_key)` (lines 21-43): the returned `int` and the key
after the call. -/
def EC_KEY_regenerate_key {P : Type} (L : Lib P) (eckey : Option (EC_KEY P))
    (priv_key : Option BIGNUM) : Int × Option (EC_KEY P) :=
  match eckey with
  | none => (0, none)
  | some key =>
    let group := EC_KEY_get0_group key
    if L.BN_CTX_new = false then (0, some key)
    else if L.EC_POINT_new group = false then (0, some key)
    else
      match L.EC_POINT_mul group priv_key none none with
      | none => (0, some key)
      | some pub_key =>
        let key1 := EC_KEY_set_private_key key priv_key
        let key2 := EC_KEY_set_public_key key1 (some pub_key)
        (1, some key2)

/-- The constructor `ECKey::ECKey(curve)` (lines 45-54): the object, and the exception it
schedules when the curve context is `NULL`. -/
def ECKey.ctor {P : Type} (L : Lib P) (curve : Int) : ECKey P × List String :=
  let mKey := L.EC_KEY_new_by_curve_name curve
  let self : ECKey P :=
    { mLastError := none, mHasPrivateKey := false, mCurve := curve, mKey := mKey }
  match mKey with
  | none => (self, ["EC_KEY_new_by_curve_name Invalid curve?"])
  | some _ => (self, [])

/-- `ECKey::New(args)` (lines 83-122).  `construct` is `args.IsConstructCall()`, `arg0` is
`args[0]` (`none` for `undefined`, otherwise its `NumberValue()` as an `int`), `arg1` and
`arg2` are `args[1]` and `args[2]`.  The value returned is the wrapped object. -/
def ECKey.New {P : Type} (L : Lib P) (construct : Bool) (arg0 : Option Int)
    (arg1 arg2 : Value P) : Call (ECKey P) :=
  if construct = false then V8Exception [] "Must use new keyword"
  else
    match arg0 with
    | none => V8Exception [] "Curve required?"
    | some curve =>
      let (eckey, pending) := ECKey.ctor L curve
      if arg1.IsUndefined = false then
        match arg1 with
        | .buffer bufferData =>
          if arg2.IsUndefined || arg2.BooleanValue == false then
            let bn := BN_bin2bn bufferData
            let (ok, mKey) := EC_KEY_regenerate_key L eckey.mKey (some bn)
            if ok = 0 then V8Exception pending "Invalid private key"
            else ⟨pending, .value { eckey with mKey := mKey, mHasPrivateKey := true }⟩
          else
            match L.o2i_ECPublicKey eckey.mKey bufferData with
            | none => V8Exception pending "o2i_ECPublicKey failed"
            | some key => ⟨pending, .value { eckey with mKey := some key }⟩
        | _ => V8Exception pending "Second parameter must be a buffer"
      else
        match L.EC_KEY_generate_key eckey.mKey with
        | none => V8Exception pending "EC_KEY_generate_key failed"
        | some key => ⟨pending, .value { eckey with mKey := some key, mHasPrivateKey := true }⟩

/-- `ECKey::GetHasPrivateKey` (lines 130-134). -/
def ECKey.GetHasPrivateKey {P : Type} (eckey : ECKey P) : Bool := eckey.mHasPrivateKey

/-- `ECKey::GetPublicKey` (lines 135-153). -/
def ECKey.GetPublicKey {P : Type} (L : Lib P) (eckey : ECKey P) : Call Bytes :=
  match eckey.mKey with
  | none => ⟨[], .fault⟩
  | some key =>
    let group := EC_KEY_get0_group key
    let point := EC_KEY_get0_public_key key
    let nReq := (L.EC_POINT_point2oct group point none).1
    if nReq = 0 then V8Exception [] "EC_POINT_point2oct error"
    else
      let buf := malloc L nReq
      let (n, written) := L.EC_POINT_point2oct group point (some nReq)
      if n ≠ nReq then V8Exception [] "EC_POINT_point2oct didn't return correct size"
      else ⟨[], Buffer_New_memcpy (store buf written) nReq⟩

/-- `ECKey::GetPrivateKey` (lines 154-171). -/
def ECKey.GetPrivateKey {P : Type} (L : Lib P) (eckey : ECKey P) : Call Bytes :=
  match eckey.mKey with
  | none => ⟨[], .fault⟩
  | some key =>
    match EC_KEY_get0_private_key key with
    | none => V8Exception [] "EC_KEY_get0_private_key failed"
    | some bn =>
      let priv_size := BN_num_bytes bn
      let priv_buf := malloc L priv_size
      let (n, written) := BN_bn2bin bn
      if n ≠ priv_size then V8Exception [] "BN_bn2bin didn't return priv_size"
      else ⟨[], Buffer_New_memcpy (store priv_buf written) priv_size⟩

/-- `ECKey::Sign(args)` (lines 174-207); `arg0` is `args[0]`. -/
def ECKey.Sign {P : Type} (L : Lib P) (eckey : ECKey P) (arg0 : Value P) : Call Bytes :=
  match arg0 with
  | .buffer digest =>
    if eckey.mHasPrivateKey = false then V8Exception [] "cannot sign without private key"
    else
      match L.ECDSA_do_sign digest eckey.mKey with
      | none => V8Exception [] "ECDSA_do_sign"
      | some sig =>
        let sig_len := (L.i2d_ECDSA_SIG sig false).1
        if sig_len = 0 then V8Exception [] "i2d_ECDSA_SIG"
        else
          let sig_data2 := malloc L sig_len
          let (n, written) := L.i2d_ECDSA_SIG sig true
          if n ≠ sig_len then V8Exception [] "i2d_ECDSA_SIG didnot return correct length"
          else ⟨[], Buffer_New_memcpy (store sig_data2 written) sig_len⟩
  | _ => V8Exception [] "digest must be a buffer"

/-- `ECKey::VerifySignature(args)` (lines 208-233). -/
def ECKey.VerifySignature {P : Type} (L : Lib P) (eckey : ECKey P) (arg0 arg1 : Value P) :
    Call Bool :=
  match arg0 with
  | .buffer digest =>
    match arg1 with
    | .buffer signature =>
      let result := L.ECDSA_verify 0 digest signature eckey.mKey
      if result = -1 then V8Exception [] "ECDSA_verify"
      else if result = 0 then ⟨[], .value false⟩
      else if result = 1 then ⟨[], .value true⟩
      else V8Exception [] "ECDSA_verify gave an unexpected return value"
    | _ => V8Exception [] "signature must be a buffer"
  | _ => V8Exception [] "digest must be a buffer"

/-- `ECKey::DeriveSharedSecret(args)` (lines 234-250); `arg0` is `args[0]`.  `Unwrap` of a
value that wraps no `ECKey`, and reading the public key through a `NULL` `mKey`, are
undefined. -/
def ECKey.DeriveSharedSecret {P : Type} (L : Lib P) (eckey : ECKey P) (arg0 : Value P) :
    Call Bytes :=
  match arg0 with
  | .undefined => V8Exception [] "other is required"
  | .eckey none => V8Exception [] "other must be an ECKey"
  | .eckey (some other) =>
    match other.mKey with
    | none => ⟨[], .fault⟩
    | some otherKey =>
      let secret := malloc L 512
      let (len, written) := L.ECDH_compute_key 512 (EC_KEY_get0_public_key otherKey) eckey.mKey
      ⟨[], Buffer_New_memcpy (store secret written) len⟩
  | _ => ⟨[], .fault⟩

/-! ## Contracts of the external primitives -/

/-- Contract of `EC_POINT_mul(group, r, d, NULL, NULL, ctx)`: it stores the generator times
the scalar. -/
def MulContract {P : Type} [AddCommGroup P] (L : Lib P) : Prop :=
  ∀ (g : EC_GROUP P) (d : BIGNUM), L.EC_POINT_mul g (some d) none none = some (d • g.generator)

/-- Contract of `EC_KEY_generate_key`: it rejects a `NULL` key, and on success the key keeps
its group and holds a scalar together with the generator times that scalar. -/
def GenerateContract {P : Type} [AddCommGroup P] (L : Lib P) : Prop :=
  L.EC_KEY_generate_key none = none ∧
  ∀ key key1 : EC_KEY P, L.EC_KEY_generate_key (some key) = some key1 →
    key1.group = key.group ∧
    ∃ d : BIGNUM, key1.priv_key = some d ∧ key1.pub_key = some (d • key.group.generator)

/-- Contract of `ECDH_compute_key` without a KDF: the status and the bytes written are
determined by the group of the key, the capacity of the output array and the product of the
key's private scalar with the peer's point. -/
def ECDHContract {P : Type} [AddCommGroup P] (L : Lib P) : Prop :=
  ∃ f : EC_GROUP P → Nat → P → Int × Bytes,
    ∀ (outlen : Nat) (Q : P) (key : EC_KEY P) (d : BIGNUM),
      key.priv_key = some d →
        L.ECDH_compute_key outlen (some Q) (some key) = f key.group outlen (d • Q)

/-- The point ECDSA verification computes from the digest value `z`, the public point `Q`
and the pair (r, s): with `w` the inverse of `s` modulo the order, `(z w) G + (r w) Q`. -/
def ecdsaPoint {P : Type} [AddCommGroup P] (g : EC_GROUP P) (z : Nat) (Q : P)
    (sig : ECDSA_SIG) : P :=
  (z * (sig.s ^ (g.order - 2) % g.order) % g.order) • g.generator
    + (sig.r * (sig.s ^ (g.order - 2) % g.order) % g.order) • Q

/-- The ECDSA signing equations: for some nonce `k`, not a multiple of the order and with
`k G` not the neutral element, `r` is the x-coordinate of `k G` modulo the order, `r` and `s`
are non-zero residues and `s k = z + r d` modulo the order. -/
def ECDSASigned {P : Type} [AddCommGroup P] (g : EC_GROUP P) (xcoord : P → Nat) (z d : Nat)
    (sig : ECDSA_SIG) : Prop :=
  ∃ k : Nat, k % g.order ≠ 0 ∧ k • g.generator ≠ 0 ∧
    sig.r = xcoord (k • g.generator) % g.order ∧
    0 < sig.r ∧ 0 < sig.s ∧ sig.s < g.order ∧
    (sig.s * k) % g.order = (z + sig.r * d) % g.order

/-- The ECDSA verification equations: `r` and `s` are non-zero residues, the point
`ecdsaPoint` is not the neutral element and its x-coordinate modulo the order is `r`. -/
def ECDSAValid {P : Type} [AddCommGroup P] (g : EC_GROUP P) (xcoord : P → Nat) (z : Nat) (Q : P)
    (sig : ECDSA_SIG) : Prop :=
  0 < sig.r ∧ sig.r < g.order ∧ 0 < sig.s ∧ sig.s < g.order ∧
    ecdsaPoint g z Q sig ≠ 0 ∧ xcoord (ecdsaPoint g z Q sig) % g.order = sig.r

/-- Contract of the ECDSA primitives, with `xcoord` the affine x-coordinate of a point and
`toInt` the conversion of a digest to a number for a group.  On the groups the library
hands out: the order is a prime that annihilates the generator; a pair returned by
`ECDSA_do_sign` satisfies the signing equations for the key's private scalar;
`i2d_ECDSA_SIG` reports the length of a non-empty encoding and writes it; and `ECDSA_verify`
returns 1 on the encoding of a pair that satisfies the verification equations for the key's
public point. -/
structure ECDSAContract {P : Type} [AddCommGroup P] (L : Lib P) (xcoord : P → Nat)
    (toInt : EC_GROUP P → Bytes → Nat) : Prop where
  curve : ∀ (nid : Int) (key0 : EC_KEY P), L.EC_KEY_new_by_curve_name nid = some key0 →
    key0.group.order.Prime ∧ key0.group.order • key0.group.generator = 0
  sign : ∀ (nid : Int) (key0 : EC_KEY P), L.EC_KEY_new_by_curve_name nid = some key0 →
    ∀ (digest : Bytes) (key : EC_KEY P) (d : BIGNUM) (sig : ECDSA_SIG),
      key.group = key0.group → key.priv_key = some d →
      L.ECDSA_do_sign digest (some key) = some sig →
      ECDSASigned key.group xcoord (toInt key.group digest) d sig
  encode : ∀ sig : ECDSA_SIG, ∃ der : Bytes, der ≠ [] ∧
    (L.i2d_ECDSA_SIG sig false).1 = (der.length : Int) ∧
    L.i2d_ECDSA_SIG sig true = ((der.length : Int), der)
  verify : ∀ (nid : Int) (key0 : EC_KEY P), L.EC_KEY_new_by_curve_name nid = some key0 →
    ∀ (digest : Bytes) (key : EC_KEY P) (Q : P) (sig : ECDSA_SIG),
      key.group = key0.group → key.pub_key = some Q →
      ECDSAValid key.group xcoord (toInt key.group digest) Q sig →
      L.ECDSA_verify 0 digest (L.i2d_ECDSA_SIG sig true).2 (some key) = 1

/-! ## A small instance of the primitives

A cyclic group of thirteen points stands in for a curve: the points are `ZMod 13`, the
generator is `1`, the affine x-coordinate of a point other than the neutral element is its
residue.  The primitives below follow OpenSSL on this group; signatures are ECDSA with the
fixed nonce `7`, DER-encoded. -/

/-- The curve of the small instance, under the identifier 714. -/
def toyGroup : EC_GROUP (ZMod 13) := { nid := 714, generator := 1, order := 13 }

/-- DER `SEQUENCE { INTEGER r, INTEGER s }` for `r, s < 128`. -/
def toyDER (sig : ECDSA_SIG) : Bytes :=
  [0x30, 6, 2, 1, UInt8.ofNat sig.r, 2, 1, UInt8.ofNat sig.s]

/-- Decoder for `toyDER`. -/
def toyParse : Bytes → Option ECDSA_SIG
  | [a, b, c, d, r, e, f, s] =>
    if a = 0x30 ∧ b = 6 ∧ c = 2 ∧ d = 1 ∧ e = 2 ∧ f = 1 ∧ r.toNat < 128 ∧ s.toNat < 128 then
      some ⟨r.toNat, s.toNat⟩
    else none
  | _ => none

/-- ECDSA signing on the small instance with nonce 7, whose inverse modulo 13 is 2. -/
def toySign (dgst : Bytes) : Option (EC_KEY (ZMod 13)) → Option ECDSA_SIG
  | some key =>
    match key.priv_key with
    | some d =>
      let z := BN_bin2bn dgst
      let r := ((7 : Nat) • key.group.generator).val % 13
      let s := 2 * (z + r * d) % 13
      if r = 0 ∨ s = 0 then none else some ⟨r, s⟩
    | none => none
  | none => none

/-- ECDSA verification on the small instance: 1 valid, 0 invalid, -1 error. -/
def toyVerify (dgst sig : Bytes) : Option (EC_KEY (ZMod 13)) → Int
  | some key =>
    match key.pub_key, toyParse sig with
    | some Q, some sg =>
      if 0 < sg.r ∧ sg.r < key.group.order ∧ 0 < sg.s ∧ sg.s < key.group.order then
        if ecdsaPoint key.group (BN_bin2bn dgst) Q sg = 0 then 0
        else if (ecdsaPoint key.group (BN_bin2bn dgst) Q sg).val % key.group.order = sg.r then 1
        else 0
      else 0
    | _, _ => -1
  | none => -1

/-- `ECDH_compute_key` on the small instance: fails without a private scalar or when the
product is the neutral element, otherwise writes the one-byte x-coordinate. -/
def toyECDH (outlen : Nat) : Option (ZMod 13) → Option (EC_KEY (ZMod 13)) → Int × Bytes
  | some Q, some key =>
    match key.priv_key with
    | some d =>
      if d • Q = 0 then (-1, [])
      else (((min outlen 1 : Nat) : Int), [UInt8.ofNat (d • Q).val].take outlen)
    | none => (-1, [])
  | _, _ => (-1, [])

/-- The small instance of the primitives. -/
def toyLib : Lib (ZMod 13) where
  EC_KEY_new_by_curve_name nid := if nid = 714 then some ⟨toyGroup, none, none⟩ else none
  BN_CTX_new := true
  EC_POINT_new _ := true
  EC_POINT_mul g a Q b :=
    some (a.getD 0 • g.generator + (match Q, b with
      | some Q, some b => b • Q
      | _, _ => 0))
  EC_KEY_generate_key key :=
    key.map fun k => { k with priv_key := some 5, pub_key := some ((5 : Nat) • k.group.generator) }
  o2i_ECPublicKey key data :=
    match key, data with
    | some k, [t, x] =>
      if t = 4 ∧ x.toNat < 13 then some { k with pub_key := some (x.toNat : ZMod 13) } else none
    | _, _ => none
  EC_POINT_point2oct _ p buf :=
    match p, buf with
    | none, _ => (0, [])
    | some _, none => (2, [])
    | some Q, some n => if n < 2 then (0, []) else (2, [4, UInt8.ofNat Q.val])
  ECDSA_do_sign := toySign
  i2d_ECDSA_SIG sig out := (8, if out then toyDER sig else [])
  ECDSA_verify _ := toyVerify
  ECDH_compute_key := toyECDH
  fresh _ := 0

/-- The key of the small instance with private scalar `d`. -/
def toyKey (d : Nat) : ECKey (ZMod 13) :=
  { mLastError := none, mHasPrivateKey := true, mCurve := 714,
    mKey := some ⟨toyGroup, some d, some (d • (1 : ZMod 13))⟩ }

/-- The public-only key of the small instance with point `Q`. -/
def toyPublicKey (Q : ZMod 13) : ECKey (ZMod 13) :=
  { mLastError := none, mHasPrivateKey := false, mCurve := 714,
    mKey := some ⟨toyGroup, none, some Q⟩ }


/-! ## Lemmas on the helpers -/

section Helpers

variable {P : Type}

theorem numBitsAux_spec (fuel : Nat) : ∀ n : Nat, n ≤ fuel → n < 2 ^ numBitsAux fuel n := by
  induction fuel with
  | zero => intro n h; simp [numBitsAux]; omega
  | succ f ih =>
    intro n h
    unfold numBitsAux
    split
    · subst_vars; simp
    · have h2 : n / 2 ≤ f := by omega
      have := ih (n / 2) h2
      rw [pow_succ]
      omega

theorem lt_pow_num_bytes (a : BIGNUM) : a < 256 ^ BN_num_bytes a := by
  have h1 : a < 2 ^ BN_num_bits a := numBitsAux_spec a a le_rfl
  have h2 : BN_num_bits a ≤ 8 * BN_num_bytes a := by unfold BN_num_bytes; omega
  calc a < 2 ^ BN_num_bits a := h1
    _ ≤ 2 ^ (8 * BN_num_bytes a) := Nat.pow_le_pow_right (by norm_num) h2
    _ = 256 ^ BN_num_bytes a := by rw [pow_mul]; norm_num

theorem foldl_be_acc (l : Bytes) : ∀ acc : Nat,
    l.foldl (fun acc b => acc * 256 + b.toNat) acc
      = acc * 256 ^ l.length + l.foldl (fun acc b => acc * 256 + b.toNat) 0 := by
  induction l with
  | nil => intro acc; simp
  | cons b t ih =>
    intro acc
    simp only [List.foldl_cons, List.length_cons]
    rw [ih (acc * 256 + b.toNat), ih (0 * 256 + b.toNat)]
    ring

theorem toNat_ofNat_mod (x : Nat) : (UInt8.ofNat (x % 256)).toNat = x % 256 := by
  simp [UInt8.ofNat, UInt8.toNat, Fin.ofNat]

theorem bin2bn_digits (a : Nat) : ∀ n : Nat,
    BN_bin2bn ((List.range n).reverse.map (fun i => UInt8.ofNat ((a >>> (8 * i)) % 256)))
      = a % 256 ^ n := by
  intro n
  induction n with
  | zero => simp [BN_bin2bn, Nat.mod_one]
  | succ k ih =>
    unfold BN_bin2bn at ih ⊢
    rw [List.range_succ, List.reverse_append, List.reverse_singleton, List.singleton_append,
      List.map_cons, List.foldl_cons, foldl_be_acc, ih, toNat_ofNat_mod]
    simp only [List.length_map, List.length_reverse, List.length_range, zero_mul, zero_add]
    rw [Nat.mod_pow_succ, Nat.shiftRight_eq_div_pow, pow_mul]
    norm_num
    ring

/-- Reading back the bytes written by `BN_bn2bin` gives the number. -/
theorem BN_bin2bn_bn2bin (a : BIGNUM) : BN_bin2bn (BN_bn2bin a).2 = a := by
  unfold BN_bn2bin
  simp only
  rw [bin2bn_digits]
  exact Nat.mod_eq_of_lt (lt_pow_num_bytes a)

theorem BN_bn2bin_length (a : BIGNUM) : (BN_bn2bin a).2.length = BN_num_bytes a := by
  simp [BN_bn2bin]

theorem BN_bn2bin_fst (a : BIGNUM) : (BN_bn2bin a).1 = BN_num_bytes a := rfl

/-- A region of the size of what was written into it is copied out whole. -/
theorem copy_written (L : Lib P) (w : Bytes) :
    Buffer_New_memcpy (store (malloc L (w.length : Int)) w) (w.length : Int) = .value w := by
  simp [Buffer_New_memcpy, store, malloc]

/-- Copying `n` bytes, `n` within what was written, yields the first `n` bytes written. -/
theorem copy_leading (region w : Bytes) (n : Nat) (h : n ≤ w.length) :
    Buffer_New_memcpy (store region w) (n : Int) = .value (w.take n) := by
  have h2 : n ≤ w.length + (region.length - w.length) := by omega
  simp [Buffer_New_memcpy, store, h2, List.take_append_of_le_length h]

/-- A negative length is never copied. -/
theorem copy_negative (src : Bytes) (len : Int) (h : len < 0) :
    Buffer_New_memcpy src len = .fault := by
  have : ¬ (0 ≤ len) := by omega
  simp [Buffer_New_memcpy, this]

/-- `EC_KEY_regenerate_key` when every primitive it calls succeeds. -/
theorem regenerate_ok (L : Lib P) (key : EC_KEY P) (priv : Option BIGNUM) (pub : P)
    (hctx : L.BN_CTX_new = true) (hpt : L.EC_POINT_new key.group = true)
    (hmul : L.EC_POINT_mul key.group priv none none = some pub) :
    EC_KEY_regenerate_key L (some key) priv = (1, some ⟨key.group, priv, some pub⟩) := by
  simp [EC_KEY_regenerate_key, EC_KEY_get0_group, EC_KEY_set_private_key,
    EC_KEY_set_public_key, hctx, hpt, hmul]

/-- `EC_KEY_regenerate_key` returns 0 exactly when the key is `NULL` or one of `BN_CTX_new`,
`EC_POINT_new`, `EC_POINT_mul` fails. -/
theorem regenerate_fail_iff (L : Lib P) (key : EC_KEY P) (priv : Option BIGNUM) :
    (EC_KEY_regenerate_key L (some key) priv).1 = 0 ↔
      (L.BN_CTX_new = false ∨ L.EC_POINT_new key.group = false ∨
        L.EC_POINT_mul key.group priv none none = none) := by
  unfold EC_KEY_regenerate_key EC_KEY_get0_group
  cases hctx : L.BN_CTX_new <;> cases hpt : L.EC_POINT_new key.group <;>
    cases hmul : L.EC_POINT_mul key.group priv none none <;> simp [*]

/-- On failure `EC_KEY_regenerate_key` leaves the key as it was. -/
theorem regenerate_fail_unchanged (L : Lib P) (eckey : Option (EC_KEY P))
    (priv : Option BIGNUM) (h : (EC_KEY_regenerate_key L eckey priv).1 = 0) :
    (EC_KEY_regenerate_key L eckey priv).2 = eckey := by
  cases eckey with
  | none => rfl
  | some key =>
    revert h
    unfold EC_KEY_regenerate_key EC_KEY_get0_group
    cases hctx : L.BN_CTX_new <;> cases hpt : L.EC_POINT_new key.group <;>
      cases hmul : L.EC_POINT_mul key.group priv none none <;> simp [*]

end Helpers

/-! ## ECDSA: a pair that satisfies the signing equations satisfies the verification
equations -/

section ECDSA

variable {P : Type} [AddCommGroup P]

theorem nsmul_mod_order (G : P) (n a : Nat) (hG : n • G = 0) : (a % n) • G = a • G := by
  conv_rhs => rw [← Nat.div_add_mod a n]
  rw [add_nsmul, mul_nsmul, hG, smul_zero, zero_add]

theorem nsmul_congr_order (G : P) (n a b : Nat) (hG : n • G = 0) (h : a % n = b % n) :
    a • G = b • G := by
  rw [← nsmul_mod_order G n a hG, ← nsmul_mod_order G n b hG, h]

theorem ecdsa_correct (g : EC_GROUP P) (xcoord : P → Nat) (z d : Nat) (sig : ECDSA_SIG)
    (hp : g.order.Prime) (hG : g.order • g.generator = 0)
    (h : ECDSASigned g xcoord z d sig) :
    ECDSAValid g xcoord z (d • g.generator) sig := by
  obtain ⟨k, _, hkG, hr, hr0, hs0, hsn, heq⟩ := h
  haveI : Fact g.order.Prime := ⟨hp⟩
  have hn : 0 < g.order := hp.pos
  have hS : ((sig.s : ZMod g.order)) ≠ 0 := by
    rw [Ne, ZMod.natCast_zmod_eq_zero_iff_dvd]
    intro hdvd
    have := Nat.le_of_dvd hs0 hdvd
    omega
  have hcast : (sig.s : ZMod g.order) * (k : ZMod g.order)
      = (z : ZMod g.order) + (sig.r : ZMod g.order) * (d : ZMod g.order) := by
    have := (ZMod.natCast_eq_natCast_iff' (sig.s * k) (z + sig.r * d) g.order).2 heq
    push_cast at this
    exact this
  have hw : ((sig.s ^ (g.order - 2) % g.order : Nat) : ZMod g.order) * (sig.s : ZMod g.order)
      = 1 := by
    rw [ZMod.natCast_mod, Nat.cast_pow, ← pow_succ]
    have h2 : g.order - 2 + 1 = g.order - 1 := by have := hp.two_le; omega
    rw [h2]
    exact ZMod.pow_card_sub_one_eq_one hS
  have hpoint : ecdsaPoint g z (d • g.generator) sig = k • g.generator := by
    unfold ecdsaPoint
    rw [← mul_nsmul', ← add_nsmul]
    apply nsmul_congr_order _ _ _ _ hG
    apply (ZMod.natCast_eq_natCast_iff' _ _ g.order).1
    simp only [Nat.cast_add, Nat.cast_mul, ZMod.natCast_mod, Nat.cast_pow]
    set W : ZMod g.order := (sig.s : ZMod g.order) ^ (g.order - 2) with hWdef
    have hw2 : W * (sig.s : ZMod g.order) = 1 := by
      have := hw
      rw [ZMod.natCast_mod, Nat.cast_pow] at this
      exact this
    calc (z : ZMod g.order) * W + (sig.r : ZMod g.order) * W * (d : ZMod g.order)
        = W * ((z : ZMod g.order) + (sig.r : ZMod g.order) * (d : ZMod g.order)) := by ring
      _ = W * ((sig.s : ZMod g.order) * (k : ZMod g.order)) := by rw [hcast]
      _ = (W * (sig.s : ZMod g.order)) * (k : ZMod g.order) := by ring
      _ = (k : ZMod g.order) := by rw [hw2, one_mul]
  have hrn : sig.r < g.order := by rw [hr]; exact Nat.mod_lt _ hn
  refine ⟨hr0, hrn, hs0, hsn, ?_, ?_⟩
  · rw [hpoint]; exact hkG
  · rw [hpoint, ← hr]

end ECDSA

/-! ## Facts on the small instance -/

theorem toyLib_MulContract : MulContract toyLib := by
  intro g d
  simp [toyLib]

theorem toyLib_GenerateContract : GenerateContract toyLib := by
  refine ⟨rfl, ?_⟩
  intro key key1 h
  simp only [toyLib, Option.map_some', Option.some.injEq] at h
  subst h
  exact ⟨rfl, 5, rfl, rfl⟩

theorem toyLib_ECDHContract : ECDHContract toyLib := by
  refine ⟨fun _ outlen X =>
    if X = 0 then (-1, []) else (((min outlen 1 : Nat) : Int), [UInt8.ofNat X.val].take outlen), ?_⟩
  intro outlen Q key d h
  simp [toyLib, toyECDH, h]

theorem toyParse_toyDER (sig : ECDSA_SIG) (hr : sig.r < 13) (hs : sig.s < 13) :
    toyParse (toyDER sig) = some sig := by
  have h1 : (UInt8.ofNat sig.r).toNat = sig.r := by
    simp only [UInt8.ofNat, UInt8.toNat, Fin.ofNat, Fin.val_mk]
    exact Nat.mod_eq_of_lt (by omega)
  have h2 : (UInt8.ofNat sig.s).toNat = sig.s := by
    simp only [UInt8.ofNat, UInt8.toNat, Fin.ofNat, Fin.val_mk]
    exact Nat.mod_eq_of_lt (by omega)
  have h3 : sig.r < 128 := by omega
  have h4 : sig.s < 128 := by omega
  simp [toyParse, toyDER, h1, h2, h3, h4]

theorem toy_sign_arith (z d : Nat) :
    2 * (z + 7 * d) % 13 < 13 ∧ 2 * (z + 7 * d) % 13 * 7 % 13 = (z + 7 * d) % 13 := by
  omega

theorem toyLib_curve (nid : Int) (key0 : EC_KEY (ZMod 13))
    (h : toyLib.EC_KEY_new_by_curve_name nid = some key0) : key0.group = toyGroup := by
  simp only [toyLib] at h
  split at h
  · simp only [Option.some.injEq] at h
    subst h
    rfl
  · exact absurd h (by simp)

theorem toyLib_ECDSAContract : ECDSAContract toyLib ZMod.val (fun _ => BN_bin2bn) := by
  refine ⟨?_, ?_, ?_, ?_⟩
  · intro nid key0 h
    rw [toyLib_curve nid key0 h]
    exact ⟨by norm_num [toyGroup], by decide⟩
  · intro nid key0 h digest key d sig hg hd hs
    rw [toyLib_curve nid key0 h] at hg
    rw [hg]
    have h7 : ((7 : Nat) • toyGroup.generator).val % 13 = 7 := by decide
    simp only [toyLib, toySign, hd, hg, h7] at hs
    split at hs
    · exact absurd hs (by simp)
    · rename_i hcond
      simp only [Option.some.injEq] at hs
      subst hs
      refine ⟨7, by decide, by decide, ?_, ?_, ?_, ?_, ?_⟩
      · exact h7.symm
      · exact Nat.succ_pos 6
      · exact Nat.pos_of_ne_zero (fun h0 => hcond (Or.inr h0))
      · exact (toy_sign_arith (BN_bin2bn digest) d).1
      · exact (toy_sign_arith (BN_bin2bn digest) d).2
  · intro sig
    exact ⟨toyDER sig, by simp [toyDER], rfl, rfl⟩
  · intro nid key0 h digest key Q sig hg hQ hvalid
    rw [toyLib_curve nid key0 h] at hg
    obtain ⟨hr0, hrn, hs0, hsn, hX, hx⟩ := hvalid
    have hr13 : sig.r < 13 := by rw [hg] at hrn; exact hrn
    have hs13 : sig.s < 13 := by rw [hg] at hsn; exact hsn
    simp only [toyLib, toyVerify, hQ, toyParse_toyDER sig hr13 hs13, hr0, hrn, hs0, hsn,
      and_self, ↓reduceIte, hX, hx]

/-! ## Verification -/

section Claims

variable {P : Type}

theorem isUndefined_undefined : (Value.undefined : Value P).IsUndefined = true := rfl

theorem isUndefined_buffer (data : Bytes) : (Value.buffer data : Value P).IsUndefined = false :=
  rfl

/-- With a peer that wraps a key, `DeriveSharedSecret` hands the peer's public point and its
own key to `ECDH_compute_key` and copies out as many bytes as the primitive reported, with no
test of the reported length and no exception. -/
theorem DeriveSharedSecret_eq (L : Lib P) (eckey other : ECKey P) (otherKey : EC_KEY P)
    (h : other.mKey = some otherKey) :
    ECKey.DeriveSharedSecret L eckey (.eckey (some other))
      = ⟨[], Buffer_New_memcpy
          (store (malloc L 512) (L.ECDH_compute_key 512 otherKey.pub_key eckey.mKey).2)
          (L.ECDH_compute_key 512 otherKey.pub_key eckey.mKey).1⟩ := by
  unfold ECKey.DeriveSharedSecret EC_KEY_get0_public_key
  simp only [h]

/-- C8: for a buffer digest and a buffer signature, `VerifySignature` returns `true` exactly
when `ECDSA_verify` returned 1, returns `false` exactly when it returned 0, raises the
exception "ECDSA_verify" exactly when it returned -1 and the exception "ECDSA_verify gave an
unexpected return value" exactly for every other result; the outcome does not depend on
`mHasPrivateKey`. -/
theorem VerifySignature_maps_result (L : Lib P) (eckey : ECKey P) (digest signature : Bytes) :
    (ECKey.VerifySignature L eckey (.buffer digest) (.buffer signature) = ⟨[], .value true⟩
      ↔ L.ECDSA_verify 0 digest signature eckey.mKey = 1) ∧
    (ECKey.VerifySignature L eckey (.buffer digest) (.buffer signature) = ⟨[], .value false⟩
      ↔ L.ECDSA_verify 0 digest signature eckey.mKey = 0) ∧
    (ECKey.VerifySignature L eckey (.buffer digest) (.buffer signature)
        = ⟨["ECDSA_verify"], .undefined⟩
      ↔ L.ECDSA_verify 0 digest signature eckey.mKey = -1) ∧
    (ECKey.VerifySignature L eckey (.buffer digest) (.buffer signature)
        = ⟨["ECDSA_verify gave an unexpected return value"], .undefined⟩
      ↔ (L.ECDSA_verify 0 digest signature eckey.mKey ≠ -1 ∧
          L.ECDSA_verify 0 digest signature eckey.mKey ≠ 0 ∧
          L.ECDSA_verify 0 digest signature eckey.mKey ≠ 1)) ∧
    (∀ b : Bool,
      ECKey.VerifySignature L { eckey with mHasPrivateKey := b } (.buffer digest)
          (.buffer signature)
        = ECKey.VerifySignature L eckey (.buffer digest) (.buffer signature)) := by
  unfold ECKey.VerifySignature V8Exception
  by_cases h1 : L.ECDSA_verify 0 digest signature eckey.mKey = -1
  · simp [h1]
  · by_cases h2 : L.ECDSA_verify 0 digest signature eckey.mKey = 0
    · simp [h2]
    · by_cases h3 : L.ECDSA_verify 0 digest signature eckey.mKey = 1
      · simp [h3]
      · simp [h1, h2, h3]

/-- C4: a key that `ECKey::New` built from import bytes flagged as public has
`HasPrivateKey` false, and `Sign` on it, for every buffer digest and whatever the signing
primitive would do, raises "cannot sign without private key" and returns no signature. -/
theorem public_import_cannot_sign (L : Lib P) (construct : Bool) (arg0 : Option Int)
    (bytes : Bytes) (arg2 : Value P) (k : ECKey P)
    (hflag : arg2.IsUndefined = false ∧ arg2.BooleanValue = true)
    (hnew : (ECKey.New L construct arg0 (.buffer bytes) arg2).ret = .value k) :
    k.GetHasPrivateKey = false ∧
    ∀ (L2 : Lib P) (digest : Bytes),
      ECKey.Sign L2 k (.buffer digest) = ⟨["cannot sign without private key"], .undefined⟩ ∧
      (ECKey.Sign L2 k (.buffer digest)).result = none := by
  obtain ⟨hu, hb⟩ := hflag
  have hk : k.mHasPrivateKey = false := by
    revert hnew
    unfold ECKey.New
    cases construct
    · simp [V8Exception]
    · cases arg0 with
      | none => simp [V8Exception]
      | some curve =>
        simp only [Bool.true_eq_false, ↓reduceIte, isUndefined_buffer, hu, hb,
          Bool.false_or, beq_self_eq_true, ECKey.ctor]
        cases hc : L.EC_KEY_new_by_curve_name curve with
        | none =>
          cases ho : L.o2i_ECPublicKey none bytes <;> simp [V8Exception, ho]
          intro h; subst h; rfl
        | some key =>
          cases ho : L.o2i_ECPublicKey (some key) bytes <;> simp [V8Exception, ho]
          intro h; subst h; rfl
  refine ⟨hk, ?_⟩
  intro L2 digest
  simp [ECKey.Sign, hk, V8Exception, Call.result]

/-- C1, as the code has it: two keys on the same curve, each holding a private scalar and
the generator times that scalar as public point, for which the ECDH primitive called on A
with B's point reports a length `n` and has written at least `n` bytes: `DeriveSharedSecret`
on A with B returns the first `n` bytes written, a string of exactly `n` bytes, and
`DeriveSharedSecret` on B with A returns exactly the same byte string. -/
theorem DeriveSharedSecret_symmetric [AddCommGroup P] (L : Lib P) (hL : ECDHContract L)
    (A B : ECKey P) (kA kB : EC_KEY P) (a b : BIGNUM)
    (hA : A.mKey = some kA) (hB : B.mKey = some kB) (hcurve : kA.group = kB.group)
    (ha : kA.priv_key = some a) (hb : kB.priv_key = some b)
    (hpa : kA.pub_key = some (a • kA.group.generator))
    (hpb : kB.pub_key = some (b • kB.group.generator))
    (n : Nat) (written : Bytes)
    (hres : L.ECDH_compute_key 512 kB.pub_key A.mKey = ((n : Int), written))
    (hn : n ≤ written.length) :
    ECKey.DeriveSharedSecret L A (.eckey (some B)) = ⟨[], .value (written.take n)⟩ ∧
    ECKey.DeriveSharedSecret L B (.eckey (some A)) = ⟨[], .value (written.take n)⟩ ∧
    (written.take n).length = n := by
  obtain ⟨f, hf⟩ := hL
  have hBA : L.ECDH_compute_key 512 kA.pub_key B.mKey = ((n : Int), written) := by
    rw [← hres, hA, hB, hpa, hpb, hf 512 _ kA a ha, hf 512 _ kB b hb, hcurve, smul_comm a b]
  rw [DeriveSharedSecret_eq L A B kB hB, DeriveSharedSecret_eq L B A kA hA, hres, hBA]
  simp only [copy_leading _ _ _ hn, List.length_take, true_and]
  omega

/-- C2: a key made by the generate path of `ECKey::New` exports private-key bytes from which
`ECKey::New`, on the same curve and flagged as private, builds a key with `HasPrivateKey`
true whose `GetPublicKey` result is that of the generated key. -/
theorem private_key_round_trip [AddCommGroup P] (L : Lib P)
    (hctx : L.BN_CTX_new = true) (hpt : ∀ g, L.EC_POINT_new g = true)
    (hmul : MulContract L) (hgen : GenerateContract L)
    (curve : Int) (arg2g arg2 : Value P) (k : ECKey P)
    (hk : (ECKey.New L true (some curve) .undefined arg2g).ret = .value k)
    (hflag : arg2.IsUndefined = true ∨ arg2.BooleanValue = false) :
    ∃ (bytes : Bytes) (k2 : ECKey P),
      ECKey.GetPrivateKey L k = ⟨[], .value bytes⟩ ∧
      ECKey.New L true (some curve) (.buffer bytes) arg2 = ⟨[], .value k2⟩ ∧
      k2.GetHasPrivateKey = true ∧
      ECKey.GetPublicKey L k2 = ECKey.GetPublicKey L k := by
  have hf : (arg2.IsUndefined || arg2.BooleanValue == false) = true := by
    rcases hflag with h | h <;> simp [h]
  revert hk
  unfold ECKey.New
  simp only [Bool.true_eq_false, ↓reduceIte, isUndefined_undefined, ECKey.ctor,
    isUndefined_buffer, hf]
  cases hc : L.EC_KEY_new_by_curve_name curve with
  | none => simp [hgen.1, V8Exception]
  | some key =>
    cases hg : L.EC_KEY_generate_key (some key) with
    | none => simp [V8Exception]
    | some key1 =>
      obtain ⟨hgrp, d, hd, hpub⟩ := hgen.2 key key1 hg
      have hkey1 : key1 = ⟨key.group, some d, some (d • key.group.generator)⟩ := by
        cases key1
        simp only at hgrp hd hpub
        subst hgrp hd hpub
        rfl
      simp only [Ret.value.injEq]
      intro hk
      subst hk
      refine ⟨(BN_bn2bin d).2,
        ⟨none, true, curve, some ⟨key.group, some d, some (d • key.group.generator)⟩⟩,
        ?_, ?_, rfl, ?_⟩
      · simp only [ECKey.GetPrivateKey, hkey1, EC_KEY_get0_private_key, BN_bn2bin_fst,
          ne_eq, not_true_eq_false, ↓reduceIte]
        rw [← BN_bn2bin_length d, copy_written]
      · rw [BN_bin2bn_bn2bin, regenerate_ok L key (some d) _ hctx (hpt _) (hmul _ d)]
        simp
      · rw [hkey1]

/-- Every key that `ECKey::New` returns with `HasPrivateKey` true is on a curve of the
library and holds a private scalar together with the generator times that scalar. -/
theorem New_private_shape [AddCommGroup P] (L : Lib P) (hmul : MulContract L)
    (hgen : GenerateContract L) (construct : Bool) (arg0 : Option Int) (arg1 arg2 : Value P)
    (k : ECKey P) (hnew : (ECKey.New L construct arg0 arg1 arg2).ret = .value k)
    (hpriv : k.mHasPrivateKey = true) :
    ∃ (curve : Int) (key0 : EC_KEY P) (d : BIGNUM),
      L.EC_KEY_new_by_curve_name curve = some key0 ∧
      k.mKey = some ⟨key0.group, some d, some (d • key0.group.generator)⟩ := by
  revert hnew
  unfold ECKey.New
  cases construct
  · simp [V8Exception]
  cases arg0 with
  | none => simp [V8Exception]
  | some curve =>
    simp only [Bool.true_eq_false, ↓reduceIte, ECKey.ctor]
    cases hc : L.EC_KEY_new_by_curve_name curve with
    | none =>
      cases arg1 <;> simp [Value.IsUndefined, V8Exception, hgen.1, EC_KEY_regenerate_key]
      split
      · simp
      · cases ho : L.o2i_ECPublicKey none _ <;> simp
        intro h; subst h; simp at hpriv
    | some key0 =>
      cases arg1 with
      | undefined =>
        simp only [isUndefined_undefined, Bool.true_eq_false, ↓reduceIte]
        cases hg : L.EC_KEY_generate_key (some key0) with
        | none => simp [V8Exception]
        | some key1 =>
          obtain ⟨hgrp, d, hd, hpub⟩ := hgen.2 key0 key1 hg
          simp only [Ret.value.injEq]
          intro h
          subst h
          refine ⟨curve, key0, d, hc, ?_⟩
          cases key1
          simp only at hgrp hd hpub
          subst hgrp hd hpub
          rfl
      | buffer data =>
        simp only [isUndefined_buffer, ↓reduceIte]
        split
        · cases hctx : L.BN_CTX_new with
          | false => simp [EC_KEY_regenerate_key, hctx, V8Exception]
          | true =>
            cases hpt : L.EC_POINT_new key0.group with
            | false =>
              simp [EC_KEY_regenerate_key, EC_KEY_get0_group, hctx, hpt, V8Exception]
            | true =>
              rw [regenerate_ok L key0 (some (BN_bin2bn data)) _ hctx hpt (hmul _ _)]
              simp only [one_ne_zero, ↓reduceIte, Ret.value.injEq]
              intro h
              subst h
              exact ⟨curve, key0, BN_bin2bn data, hc, rfl⟩
        · cases ho : L.o2i_ECPublicKey (some key0) data <;> simp [V8Exception]
          intro h; subst h; simp at hpriv
      | boolean b => simp [Value.IsUndefined, V8Exception]
      | eckey w => simp [Value.IsUndefined, V8Exception]
      | other t => simp [Value.IsUndefined, V8Exception]

/-- C3, as the code has it: for every key `ECKey::New` returned with `HasPrivateKey` true
and every digest, when the signing primitive produces no pair `Sign` raises "ECDSA_do_sign"
and returns no signature, and when it produces a pair (r, s) `Sign` returns the DER encoding
of that pair and `VerifySignature` on the digest and that signature returns `true`. -/
theorem sign_then_verify [AddCommGroup P] (L : Lib P) (xcoord : P → Nat)
    (toInt : EC_GROUP P → Bytes → Nat) (hmul : MulContract L) (hgen : GenerateContract L)
    (hecdsa : ECDSAContract L xcoord toInt)
    (construct : Bool) (arg0 : Option Int) (arg1 arg2 : Value P) (k : ECKey P)
    (hnew : (ECKey.New L construct arg0 arg1 arg2).ret = .value k)
    (hpriv : k.GetHasPrivateKey = true)
    (digest : Bytes) :
    (L.ECDSA_do_sign digest k.mKey = none →
      ECKey.Sign L k (.buffer digest) = ⟨["ECDSA_do_sign"], .undefined⟩ ∧
      (ECKey.Sign L k (.buffer digest)).result = none) ∧
    (∀ sig : ECDSA_SIG, L.ECDSA_do_sign digest k.mKey = some sig →
      ∃ der : Bytes, L.i2d_ECDSA_SIG sig true = ((der.length : Int), der) ∧
        ECKey.Sign L k (.buffer digest) = ⟨[], .value der⟩ ∧
        ECKey.VerifySignature L k (.buffer digest) (.buffer der) = ⟨[], .value true⟩) := by
  have hk : k.mHasPrivateKey = true := hpriv
  constructor
  · intro hnone
    simp [ECKey.Sign, hk, hnone, V8Exception, Call.result]
  intro sig hsign
  obtain ⟨curve, key0, d, hc, hkey⟩ :=
    New_private_shape L hmul hgen construct arg0 arg1 arg2 k hnew hk
  obtain ⟨der, hder, hlen, henc⟩ := hecdsa.encode sig
  have hne : ¬ ((der.length : Int) = 0) := by
    intro h
    exact hder (List.length_eq_zero.mp (by exact_mod_cast h))
  obtain ⟨hp, hG⟩ := hecdsa.curve curve key0 hc
  rw [hkey] at hsign
  have hsigned := hecdsa.sign curve key0 hc digest
    ⟨key0.group, some d, some (d • key0.group.generator)⟩ d sig rfl rfl hsign
  have hvalid :=
    ecdsa_correct key0.group xcoord (toInt key0.group digest) d sig hp hG hsigned
  have hver := hecdsa.verify curve key0 hc digest
    ⟨key0.group, some d, some (d • key0.group.generator)⟩ _ sig rfl rfl hvalid
  rw [henc] at hver
  refine ⟨der, henc, ?_, ?_⟩
  · simp only [ECKey.Sign, hk, Bool.true_eq_false, ↓reduceIte, hkey, hsign, hlen, hne, henc,
      ne_eq, not_true_eq_false, copy_written]
  · simp [ECKey.VerifySignature, hkey, hver]

/-- C7, as the code has it: with a valid curve and import bytes flagged as private,
`ECKey::New` raises "Invalid private key" when `BN_CTX_new`, `EC_POINT_new` or `EC_POINT_mul`
fails, and otherwise, whatever the value of the scalar, returns a key with `HasPrivateKey`
true that holds the scalar and the point `EC_POINT_mul` computed. -/
theorem New_private_import (L : Lib P) (curve : Int) (key : EC_KEY P) (bytes : Bytes)
    (arg2 : Value P)
    (hcurve : L.EC_KEY_new_by_curve_name curve = some key)
    (hflag : arg2.IsUndefined = true ∨ arg2.BooleanValue = false) :
    ((L.BN_CTX_new = false ∨ L.EC_POINT_new key.group = false ∨
        L.EC_POINT_mul key.group (some (BN_bin2bn bytes)) none none = none) →
      ECKey.New L true (some curve) (.buffer bytes) arg2
        = ⟨["Invalid private key"], .undefined⟩) ∧
    (∀ pub : P, L.BN_CTX_new = true → L.EC_POINT_new key.group = true →
      L.EC_POINT_mul key.group (some (BN_bin2bn bytes)) none none = some pub →
      ECKey.New L true (some curve) (.buffer bytes) arg2
        = ⟨[], .value ⟨none, true, curve,
            some ⟨key.group, some (BN_bin2bn bytes), some pub⟩⟩⟩) := by
  constructor
  · intro h
    have h0 := (regenerate_fail_iff L key (some (BN_bin2bn bytes))).mpr h
    rcases hflag with hu | hu <;>
      simp [ECKey.New, ECKey.ctor, isUndefined_buffer, hu, hcurve, h0, V8Exception]
  · intro pub hctx hpt hmul
    rcases hflag with hu | hu <;>
      simp [ECKey.New, ECKey.ctor, isUndefined_buffer, hu, hcurve,
        regenerate_ok L key (some (BN_bin2bn bytes)) pub hctx hpt hmul]

/-- C9, as the code has it: `EC_KEY_regenerate_key` returns 0 whenever the key is `NULL`; it
returns 0 or 1; whenever it returns 0 the key is exactly as before the call; and it returns 1
only with the key holding the supplied scalar as private key and, for a scalar that is not
`NULL`, the generator times that scalar as public point. -/
theorem EC_KEY_regenerate_key_spec [AddCommGroup P] (L : Lib P) (hmul : MulContract L)
    (eckey : Option (EC_KEY P)) (priv : Option BIGNUM) :
    (eckey = none → (EC_KEY_regenerate_key L eckey priv).1 = 0) ∧
    ((EC_KEY_regenerate_key L eckey priv).1 = 0 ∨ (EC_KEY_regenerate_key L eckey priv).1 = 1) ∧
    ((EC_KEY_regenerate_key L eckey priv).1 = 0 →
      (EC_KEY_regenerate_key L eckey priv).2 = eckey) ∧
    ((EC_KEY_regenerate_key L eckey priv).1 = 1 →
      ∃ key key2 : EC_KEY P, eckey = some key ∧
        (EC_KEY_regenerate_key L eckey priv).2 = some key2 ∧
        key2.group = key.group ∧ key2.priv_key = priv ∧
        ∀ d : BIGNUM, priv = some d → key2.pub_key = some (d • key.group.generator)) := by
  refine ⟨?_, ?_, regenerate_fail_unchanged L eckey priv, ?_⟩
  · intro h; subst h; rfl
  · cases eckey with
    | none => left; rfl
    | some key =>
      unfold EC_KEY_regenerate_key EC_KEY_get0_group
      cases hctx : L.BN_CTX_new <;> cases hpt : L.EC_POINT_new key.group <;>
        cases hm : L.EC_POINT_mul key.group priv none none <;> simp [*]
  · cases eckey with
    | none => intro h; simp [EC_KEY_regenerate_key] at h
    | some key =>
      cases hctx : L.BN_CTX_new with
      | false => intro h; simp [EC_KEY_regenerate_key, hctx] at h
      | true =>
        cases hpt : L.EC_POINT_new key.group with
        | false => intro h; simp [EC_KEY_regenerate_key, EC_KEY_get0_group, hctx, hpt] at h
        | true =>
          cases hm : L.EC_POINT_mul key.group priv none none with
          | none =>
            intro h; simp [EC_KEY_regenerate_key, EC_KEY_get0_group, hctx, hpt, hm] at h
          | some pub =>
            intro _
            rw [regenerate_ok L key priv pub hctx hpt hm]
            refine ⟨key, _, rfl, rfl, rfl, rfl, ?_⟩
            intro d hd
            subst hd
            rw [hmul] at hm
            simp only [Option.some.injEq] at hm
            simp [hm]

/-- With an invalid curve and import bytes flagged as private, the constructor raises the
invalid-curve exception, `ECKey::New` goes on and raises "Invalid private key". -/
theorem New_invalid_curve_private (L : Lib P) (curve : Int) (bytes : Bytes) (arg2 : Value P)
    (hcurve : L.EC_KEY_new_by_curve_name curve = none)
    (hflag : arg2.IsUndefined = true ∨ arg2.BooleanValue = false) :
    ECKey.New L true (some curve) (.buffer bytes) arg2
      = ⟨["EC_KEY_new_by_curve_name Invalid curve?", "Invalid private key"], .undefined⟩ := by
  rcases hflag with hu | hu <;>
    simp [ECKey.New, ECKey.ctor, isUndefined_buffer, hu, hcurve, EC_KEY_regenerate_key,
      V8Exception]

/-- `DeriveSharedSecret` never reads `mHasPrivateKey`. -/
theorem DeriveSharedSecret_flag (L : Lib P) (eckey : ECKey P) (arg0 : Value P) (b : Bool) :
    ECKey.DeriveSharedSecret L { eckey with mHasPrivateKey := b } arg0
      = ECKey.DeriveSharedSecret L eckey arg0 := rfl

/-- When `ECDH_compute_key` reports a length `n` with `0 < n ≤ 512` and wrote at least `n`
bytes, the buffer returned holds exactly the first `n` bytes written. -/
theorem DeriveSharedSecret_length (L : Lib P) (eckey other : ECKey P) (otherKey : EC_KEY P)
    (n : Nat) (written : Bytes) (h : other.mKey = some otherKey)
    (hres : L.ECDH_compute_key 512 otherKey.pub_key eckey.mKey = ((n : Int), written))
    (hn : n ≤ written.length) :
    ECKey.DeriveSharedSecret L eckey (.eckey (some other)) = ⟨[], .value (written.take n)⟩ ∧
    (written.take n).length = n := by
  rw [DeriveSharedSecret_eq L eckey other otherKey h, hres]
  simp only [copy_leading _ _ _ hn, List.length_take, true_and]
  omega

/-- When `ECDH_compute_key` reports a negative length, `DeriveSharedSecret` raises no
exception and copies with that length. -/
theorem DeriveSharedSecret_negative (L : Lib P) (eckey other : ECKey P) (otherKey : EC_KEY P)
    (h : other.mKey = some otherKey)
    (hlen : (L.ECDH_compute_key 512 otherKey.pub_key eckey.mKey).1 < 0) :
    ECKey.DeriveSharedSecret L eckey (.eckey (some other)) = ⟨[], .fault⟩ := by
  rw [DeriveSharedSecret_eq L eckey other otherKey h, copy_negative _ _ hlen]

end Claims

/-! ## Evaluations on the small instance -/

/-- C7, refuted as stated: on the valid curve 714, whose group order is 13, import bytes of
value zero and import bytes of value 13, flagged as private, do not make `ECKey::New` fail:
it returns a key with `HasPrivateKey` true. -/
theorem New_accepts_out_of_range_scalar :
    toyLib.EC_KEY_new_by_curve_name 714 = some ⟨toyGroup, none, none⟩ ∧ toyGroup.order = 13 ∧
    BN_bin2bn [0] = 0 ∧
    ECKey.New toyLib true (some 714) (.buffer [0]) .undefined = ⟨[], .value (toyKey 0)⟩ ∧
    (toyKey 0).GetHasPrivateKey = true ∧
    BN_bin2bn [13] = 13 ∧
    ECKey.New toyLib true (some 714) (.buffer [13]) .undefined = ⟨[], .value (toyKey 13)⟩ ∧
    (toyKey 13).GetHasPrivateKey = true := by
  decide

/-- C9, refuted as stated: with a `NULL` scalar `EC_KEY_regenerate_key` makes no test of its
own; `EC_POINT_mul` stores the neutral element and succeeds, and the routine returns 1. -/
theorem EC_KEY_regenerate_key_null_scalar :
    EC_KEY_regenerate_key toyLib (some ⟨toyGroup, none, none⟩) none
      = (1, some ⟨toyGroup, none, some 0⟩) := by
  decide

set_option maxRecDepth 100000 in
/-- C1, refuted as stated: the keys `ECKey::New` builds on curve 714 from the scalars 0 and 3
both hold a private scalar and the generator times it as public point, yet
`DeriveSharedSecret` returns no byte string in either direction: the ECDH primitive reports
-1, as the product is the neutral element, and the code copies with that length. -/
theorem DeriveSharedSecret_no_secret :
    ECKey.New toyLib true (some 714) (.buffer [0]) .undefined = ⟨[], .value (toyKey 0)⟩ ∧
    ECKey.New toyLib true (some 714) (.buffer [3]) .undefined = ⟨[], .value (toyKey 3)⟩ ∧
    (toyKey 0).mKey = some ⟨toyGroup, some 0, some ((0 : Nat) • toyGroup.generator)⟩ ∧
    (toyKey 3).mKey = some ⟨toyGroup, some 3, some ((3 : Nat) • toyGroup.generator)⟩ ∧
    toyLib.ECDH_compute_key 512 (some ((3 : Nat) • toyGroup.generator)) (toyKey 0).mKey
      = (-1, []) ∧
    ECKey.DeriveSharedSecret toyLib (toyKey 0) (.eckey (some (toyKey 3))) = ⟨[], .fault⟩ ∧
    (ECKey.DeriveSharedSecret toyLib (toyKey 0) (.eckey (some (toyKey 3)))).result = none ∧
    ECKey.DeriveSharedSecret toyLib (toyKey 3) (.eckey (some (toyKey 0))) = ⟨[], .fault⟩ ∧
    (ECKey.DeriveSharedSecret toyLib (toyKey 3) (.eckey (some (toyKey 0)))).result = none := by
  decide

/-- C3, refuted as stated: the key `ECKey::New` builds on curve 714 from the scalar 0 has
`HasPrivateKey` true, and on the digest `[0]` the signing primitive produces no pair (`s`
would be zero): `Sign` raises "ECDSA_do_sign" and returns no signature. -/
theorem Sign_without_signature :
    ECKey.New toyLib true (some 714) (.buffer [0]) .undefined = ⟨[], .value (toyKey 0)⟩ ∧
    (toyKey 0).GetHasPrivateKey = true ∧
    toyLib.ECDSA_do_sign [0] (toyKey 0).mKey = none ∧
    ECKey.Sign toyLib (toyKey 0) (.buffer [0]) = ⟨["ECDSA_do_sign"], .undefined⟩ ∧
    (ECKey.Sign toyLib (toyKey 0) (.buffer [0])).result = none := by
  decide

set_option maxRecDepth 100000 in
/-- C5, the code at a public-only key: the key imported from public bytes has
`HasPrivateKey` false, yet `DeriveSharedSecret` raises no exception; it calls
`ECDH_compute_key`, which reports -1, and copies with that length. -/
theorem DeriveSharedSecret_public_only :
    ECKey.New toyLib true (some 714) (.buffer [4, 5]) (.boolean true)
      = ⟨[], .value (toyPublicKey 5)⟩ ∧
    (toyPublicKey 5).GetHasPrivateKey = false ∧
    (ECKey.DeriveSharedSecret toyLib (toyPublicKey 5) (.eckey (some (toyKey 3)))).thrown = [] ∧
    ECKey.DeriveSharedSecret toyLib (toyPublicKey 5) (.eckey (some (toyKey 3)))
      = ⟨[], .fault⟩ := by
  decide

/-- C6, the code at an invalid curve: the constructor raises the invalid-curve exception but
`ECKey::New` continues, and on each of the three import paths raises a second exception,
which is the one the caller observes; no key is returned. -/
theorem New_invalid_curve_later_error :
    toyLib.EC_KEY_new_by_curve_name 0 = none ∧
    ECKey.New toyLib true (some 0) (.buffer [3]) .undefined
      = ⟨["EC_KEY_new_by_curve_name Invalid curve?", "Invalid private key"], .undefined⟩ ∧
    (ECKey.New toyLib true (some 0) (.buffer [3]) .undefined).reported
      = some "Invalid private key" ∧
    ECKey.New toyLib true (some 0) (.buffer [4, 5]) (.boolean true)
      = ⟨["EC_KEY_new_by_curve_name Invalid curve?", "o2i_ECPublicKey failed"], .undefined⟩ ∧
    (ECKey.New toyLib true (some 0) (.buffer [4, 5]) (.boolean true)).reported
      = some "o2i_ECPublicKey failed" ∧
    ECKey.New toyLib true (some 0) .undefined .undefined
      = ⟨["EC_KEY_new_by_curve_name Invalid curve?", "EC_KEY_generate_key failed"],
          .undefined⟩ ∧
    (ECKey.New toyLib true (some 0) .undefined .undefined).reported
      = some "EC_KEY_generate_key failed" := by
  decide

set_option maxRecDepth 100000 in
/-- C10, the code when the ECDH primitive reports failure: with a key that has no private
scalar `ECDH_compute_key` returns -1; `DeriveSharedSecret` raises no exception and passes -1
on as the length of the buffer and of the copy. -/
theorem DeriveSharedSecret_failure_unchecked :
    toyLib.ECDH_compute_key 512 (some 2) (toyPublicKey 7).mKey = (-1, []) ∧
    (ECKey.DeriveSharedSecret toyLib (toyPublicKey 7) (.eckey (some (toyKey 2)))).reported
      = none ∧
    (ECKey.DeriveSharedSecret toyLib (toyPublicKey 7) (.eckey (some (toyKey 2)))).ret
      = .fault ∧
    Buffer_New_memcpy (store (malloc toyLib 512) []) (-1) = .fault := by
  decide

/-! ## Instances of the theorems -/

set_option maxRecDepth 100000 in
/-- Instance of C1 as amended: the keys with scalars 3 and 5 derive the same byte `[2]` from
each other. -/
theorem DeriveSharedSecret_symmetric_witness :
    ECDHContract toyLib ∧
    ECKey.New toyLib true (some 714) (.buffer [3]) .undefined = ⟨[], .value (toyKey 3)⟩ ∧
    ECKey.New toyLib true (some 714) (.buffer [5]) .undefined = ⟨[], .value (toyKey 5)⟩ ∧
    toyLib.ECDH_compute_key 512 (some ((5 : Nat) • (1 : ZMod 13))) (toyKey 3).mKey
      = (((1 : Nat) : Int), [2]) ∧
    ECKey.DeriveSharedSecret toyLib (toyKey 3) (.eckey (some (toyKey 5)))
      = ⟨[], .value (([2] : Bytes).take 1)⟩ ∧
    ECKey.DeriveSharedSecret toyLib (toyKey 5) (.eckey (some (toyKey 3)))
      = ⟨[], .value (([2] : Bytes).take 1)⟩ ∧
    (([2] : Bytes).take 1).length = 1 :=
  ⟨toyLib_ECDHContract, by decide, by decide, by decide,
    DeriveSharedSecret_symmetric toyLib toyLib_ECDHContract (toyKey 3) (toyKey 5)
      ⟨toyGroup, some 3, some ((3 : Nat) • (1 : ZMod 13))⟩
      ⟨toyGroup, some 5, some ((5 : Nat) • (1 : ZMod 13))⟩ 3 5 rfl rfl rfl rfl rfl rfl rfl
      1 [2] (by decide) (by decide)⟩

/-- Instance of C2: the generated key with scalar 5 exports `[5]`, and the import of
these bytes gives a key with the same public key. -/
theorem private_key_round_trip_witness :
    toyLib.BN_CTX_new = true ∧ MulContract toyLib ∧ GenerateContract toyLib ∧
    (ECKey.New toyLib true (some 714) .undefined .undefined).ret = .value (toyKey 5) ∧
    ∃ (bytes : Bytes) (k2 : ECKey (ZMod 13)),
      ECKey.GetPrivateKey toyLib (toyKey 5) = ⟨[], .value bytes⟩ ∧
      ECKey.New toyLib true (some 714) (.buffer bytes) .undefined = ⟨[], .value k2⟩ ∧
      k2.GetHasPrivateKey = true ∧
      ECKey.GetPublicKey toyLib k2 = ECKey.GetPublicKey toyLib (toyKey 5) :=
  ⟨rfl, toyLib_MulContract, toyLib_GenerateContract, by decide,
    private_key_round_trip toyLib rfl (fun _ => rfl) toyLib_MulContract toyLib_GenerateContract
      714 .undefined .undefined (toyKey 5) (by decide) (Or.inl rfl)⟩

/-- Instance of C3 as amended: the key imported from the scalar 5 signs the digest `[1, 2]`
and verifies the signature. -/
theorem sign_then_verify_witness :
    ECDSAContract toyLib ZMod.val (fun _ => BN_bin2bn) ∧
    (ECKey.New toyLib true (some 714) (.buffer [5]) .undefined).ret = .value (toyKey 5) ∧
    (toyKey 5).GetHasPrivateKey = true ∧
    toyLib.ECDSA_do_sign [1, 2] (toyKey 5).mKey = some ⟨7, 1⟩ ∧
    ECKey.Sign toyLib (toyKey 5) (.buffer [1, 2]) = ⟨[], .value [0x30, 6, 2, 1, 7, 2, 1, 1]⟩ ∧
    ∃ der : Bytes, toyLib.i2d_ECDSA_SIG ⟨7, 1⟩ true = ((der.length : Int), der) ∧
      ECKey.Sign toyLib (toyKey 5) (.buffer [1, 2]) = ⟨[], .value der⟩ ∧
      ECKey.VerifySignature toyLib (toyKey 5) (.buffer [1, 2]) (.buffer der)
        = ⟨[], .value true⟩ :=
  ⟨toyLib_ECDSAContract, by decide, rfl, by decide, by decide,
    (sign_then_verify toyLib ZMod.val (fun _ => BN_bin2bn) toyLib_MulContract
      toyLib_GenerateContract toyLib_ECDSAContract true (some 714) (.buffer [5]) .undefined
      (toyKey 5) (by decide) rfl [1, 2]).2 ⟨7, 1⟩ (by decide)⟩

/-- Instance of C4: the key imported from the public bytes `[4, 3]` cannot sign. -/
theorem public_import_cannot_sign_witness :
    (ECKey.New toyLib true (some 714) (.buffer [4, 3]) (.boolean true)).ret
      = .value (toyPublicKey 3) ∧
    (toyPublicKey 3).GetHasPrivateKey = false ∧
    ∀ (L2 : Lib (ZMod 13)) (digest : Bytes),
      ECKey.Sign L2 (toyPublicKey 3) (.buffer digest)
        = ⟨["cannot sign without private key"], .undefined⟩ ∧
      (ECKey.Sign L2 (toyPublicKey 3) (.buffer digest)).result = none :=
  ⟨by decide,
    public_import_cannot_sign toyLib true (some 714) [4, 3] (.boolean true) (toyPublicKey 3)
      ⟨rfl, rfl⟩ (by decide)⟩

/-- Instance of C7 as amended, at the import bytes `[0]` on curve 714. -/
theorem New_private_import_witness :
    toyLib.EC_KEY_new_by_curve_name 714 = some ⟨toyGroup, none, none⟩ ∧
    ((toyLib.BN_CTX_new = false ∨ toyLib.EC_POINT_new toyGroup = false ∨
        toyLib.EC_POINT_mul toyGroup (some (BN_bin2bn [0])) none none = none) →
      ECKey.New toyLib true (some 714) (.buffer [0]) .undefined
        = ⟨["Invalid private key"], .undefined⟩) ∧
    (∀ pub : ZMod 13, toyLib.BN_CTX_new = true → toyLib.EC_POINT_new toyGroup = true →
      toyLib.EC_POINT_mul toyGroup (some (BN_bin2bn [0])) none none = some pub →
      ECKey.New toyLib true (some 714) (.buffer [0]) .undefined
        = ⟨[], .value ⟨none, true, 714, some ⟨toyGroup, some (BN_bin2bn [0]), some pub⟩⟩⟩) :=
  ⟨by decide,
    New_private_import toyLib 714 ⟨toyGroup, none, none⟩ [0] .undefined (by decide)
      (Or.inl rfl)⟩

/-- Instance of C9 as amended, at the scalar 3 on the key of curve 714. -/
theorem EC_KEY_regenerate_key_spec_witness :
    MulContract toyLib ∧
    EC_KEY_regenerate_key toyLib (some ⟨toyGroup, none, none⟩) (some 3)
      = (1, some ⟨toyGroup, some 3, some 3⟩) ∧
    ((EC_KEY_regenerate_key toyLib (some ⟨toyGroup, none, none⟩) (some 3)).1 = 1 →
      ∃ key key2 : EC_KEY (ZMod 13), some ⟨toyGroup, none, none⟩ = some key ∧
        (EC_KEY_regenerate_key toyLib (some ⟨toyGroup, none, none⟩) (some 3)).2 = some key2 ∧
        key2.group = key.group ∧ key2.priv_key = some 3 ∧
        ∀ d : BIGNUM, some 3 = some d → key2.pub_key = some (d • key.group.generator)) :=
  ⟨toyLib_MulContract, by decide,
    (EC_KEY_regenerate_key_spec toyLib toyLib_MulContract (some ⟨toyGroup, none, none⟩)
      (some 3)).2.2.2⟩

end ECC
